import Mathlib

/-!
Verification development for the per-guild music playback cog
(`cogs/song.py`, class `MusicCog` + `MusicPanel`).

The Python code is shallowly embedded: each player dict becomes a
`PlayerState` record, track dicts become `Track` records, and the
external collaborators (YouTube search, yt-dlp extraction, the voice
transport, the Spotify web API) become oracle functions passed in as
parameters.  Python string truthiness (`if not x:` on an optional
string) is modelled by `optStrTruthy`.  Python floats are modelled by
exact rationals (`Rat`).  The async recursion of `_play_next` /
`_after_play` is modelled with an explicit fuel parameter; every claim
is proved with enough fuel that the cut-off is never reached.
-/

/-- Python truthiness of an optional string: `None` and `""` are falsy. -/
def optStrTruthy : Option String → Bool
  | none => false
  | some s => s ≠ ""

/-- Python `a or b` on two optional strings: returns `a` when truthy, else `b`. -/
def pyOr (a b : Option String) : Option String :=
  if optStrTruthy a then a else b

/-- Python f-string rendering of an optional string (`None` prints as "None"). -/
def pyStr : Option String → String
  | none => "None"
  | some s => s

/-- One entry of `info["formats"]` as consumed by `_select_best_audio_url`
(song.py lines 79-99): only the keys `url`, `src`, `acodec`, `abr`, `tbr`
are read.  Bitrates are Python floats, modelled as rationals. -/
structure Format where
  url : Option String
  src : Option String
  acodec : Option String
  abr : Option Rat
  tbr : Option Rat
deriving Repr, DecidableEq

/-- The flat yt-dlp info dict fields read by the cog. -/
structure Info where
  url : Option String
  formats : List Format
  title : Option String
  webpage_url : Option String
  duration : Option Nat
  thumbnail : Option String
  /-- the `url` fields of the entries of `info["thumbnails"]` -/
  thumbnails : List (Option String)
deriving Repr, DecidableEq

/-- Result of `_extract_info_with_retry`: either a flat info dict or a dict
carrying an `entries` key (the code then takes `entries[0]`, song.py 756-760). -/
inductive ExtractInfo where
  | flat (info : Info)
  | withEntries (entries : List Info)
deriving Repr, DecidableEq

/-- The candidate-admission test of the loop in song.py lines 81-89:
`url = f.get("url") or f.get("src"); if not url: continue`. -/
def formatCandidate (f : Format) : Bool :=
  optStrTruthy (pyOr f.url f.src)

/-- The test `if acodec and acodec != "none":` of song.py line 86. -/
def acodecIsReal (f : Format) : Bool :=
  match f.acodec with
  | none => false
  | some a => a ≠ "" && a ≠ "none"

/-- The candidate list built by song.py lines 80-89.  Note that the source
appends `f` on BOTH branches of the acodec test, which is therefore mirrored
here as an `if` with identical arms. -/
def candidatesOf : List Format → List Format
  | [] => []
  | f :: fs =>
    if formatCandidate f then
      if acodecIsReal f then f :: candidatesOf fs else f :: candidatesOf fs
    else candidatesOf fs

/-- `score(fmt)` of song.py lines 93-96: `(fmt.get("abr") or 0, fmt.get("tbr") or 0)`.
(`x or 0` yields 0 exactly when `x` is `None` or `0`, so `getD 0` is faithful.) -/
def score (f : Format) : Rat × Rat :=
  (f.abr.getD 0, f.tbr.getD 0)

/-- Python lexicographic comparison of two `(abr, tbr)` score tuples. -/
def tupLt (x y : Rat × Rat) : Prop :=
  x.1 < y.1 ∨ (x.1 = y.1 ∧ x.2 < y.2)

instance (x y : Rat × Rat) : Decidable (tupLt x y) := by
  unfold tupLt; infer_instance

/-- The fold computing the first-seen score-maximal element: the current best
is replaced only on a strictly larger score. -/
def pickFold (f : Format) (fs : List Format) : Format :=
  fs.foldl (fun best g => if tupLt (score best) (score g) then g else best) f

/-- `sorted(candidates, key=score, reverse=True)[0]` of song.py line 98.
Python's sort is stable, also with `reverse=True`, so the head of the sorted
list is the first-seen element whose score tuple is lexicographically maximal. -/
def pickBest : List Format → Option Format
  | [] => none
  | f :: fs => some (pickFold f fs)

/-- `_select_best_audio_url` (song.py lines 75-99). -/
def _select_best_audio_url (info : Info) : Option String :=
  if optStrTruthy info.url ∧ info.formats.isEmpty then info.url
  else
    match pickBest (candidatesOf info.formats) with
    | none => none
    | some best => pyOr best.url best.src

/-- A queued / playing track dict as built by `add_and_play` (song.py 531-538),
the Spotify import (song.py 681-688) and mutated by `_resolve_lazy_track`.
`title` is an optional string because the Spotify path can store `None`. -/
structure Track where
  title : Option String
  webpage_url : Option String
  stream_url : Option String
  duration : Option Nat
  thumbnail : Option String
  query : Option String
deriving Repr, DecidableEq

/-- The thumbnail fallback of song.py lines 769-773: take `info["thumbnail"]`
when truthy, otherwise the `url` of the last entry of `info["thumbnails"]`. -/
def resolvedThumb (info : Info) : Option String :=
  if optStrTruthy info.thumbnail then info.thumbnail
  else (info.thumbnails.getLast?).getD none

/-- The tail of `_resolve_lazy_track` (song.py lines 761-776): compute the
stream URL (`_select_best_audio_url(info) or info.get("url")`), bail out if it
is falsy, otherwise assign `stream_url` and conditionally overwrite `title`,
`webpage_url` and `thumbnail` from the info dict.  The source mutates the four
distinct keys one statement at a time; here the same result is built as one
record update. -/
def applyResolvedInfo (track : Track) (info : Info) : Option Track :=
  if ¬ optStrTruthy (pyOr (_select_best_audio_url info) info.url) then none
  else
    some { track with
      stream_url := pyOr (_select_best_audio_url info) info.url
    , title := if optStrTruthy info.title then info.title else track.title
    , webpage_url := if optStrTruthy info.webpage_url then info.webpage_url else track.webpage_url
    , thumbnail := if optStrTruthy (resolvedThumb info) then resolvedThumb info else track.thumbnail }

/-- The target construction of song.py lines 743-752: the searched link when
truthy, else the synthetic `ytsearch1:` directive. -/
def resolveTarget (search : String → Option String) (query : String) : String :=
  if optStrTruthy (search query) then (search query).getD "" else "ytsearch1:" ++ query

/-- The `entries` unwrapping of song.py lines 756-760. -/
def extractHead : ExtractInfo → Option Info
  | .flat i => some i
  | .withEntries es => es.head?

/-- `_resolve_lazy_track` (song.py lines 736-776).  The YouTube search
(`VideosSearch(query).result()["result"][0].get("link")`, including its
try/except) is the oracle `search`; `_extract_info_with_retry` (both
attempts together) is the oracle `extract`. -/
def _resolve_lazy_track (search : String → Option String)
    (extract : String → Option ExtractInfo) (track : Track) : Option Track :=
  if optStrTruthy track.stream_url then some track
  else if ¬ optStrTruthy track.query then none
  else
    match extract (resolveTarget search (track.query.getD "")) with
    | none => none
    | some ei =>
      match extractHead ei with
      | none => none
      | some info => applyResolvedInfo track info

/-- Status of the guild's `discord.VoiceClient` as observed through
`is_playing()` / `is_paused()`. -/
inductive VCState where
  | playing
  | paused
  | idle
deriving Repr, DecidableEq

/-- The per-guild player dict created by `get_player` (song.py 381-402).
The panel bookkeeping fields (`panel_msg_id`, `panel_channel_id`,
`panel_updater`, `panel_last_active`, `panel_inactivity_task`) are display-side
state not touched by any claim and are omitted.  `vc = none` models
`voice_client is None`. -/
structure PlayerState where
  vc : Option VCState
  queue : List Track
  now : Option Track
  volume : Rat
  «repeat» : String
  is_playlist : Bool
  playlist_name : Option String
  start_time : Option Rat
deriving Repr, DecidableEq

/-- The fresh player dict of `get_player` (song.py 383-397). -/
def initial_player : PlayerState :=
  { vc := none, queue := [], now := none, volume := 15/100, «repeat» := "off"
  , is_playlist := false, playlist_name := none, start_time := none }

/-- External collaborators of the scheduler: YouTube search, yt-dlp
extraction, whether `vc.play` (FFmpeg source creation + playback start)
succeeds for a track, and the wall clock read by `time.time()`. -/
structure Env where
  search : String → Option String
  extract : String → Option ExtractInfo
  playOk : Track → Bool
  time : Rat

/-- The skip notice of song.py line 925 (emoji prefix omitted). -/
def skipNotice (t : Track) : String :=
  "Skipped track (could not resolve): " ++ pyStr t.title

/-- The playback-error notice of song.py line 973 (emoji prefix and the
exception text omitted). -/
def errNotice (t : Track) : String :=
  "Playback error: " ++ pyStr t.title

/-- The state mutation of `_after_play` (song.py lines 999-1008): re-insert
the completed track according to `repeat` ("single" ⇒ front, "all" ⇒ back,
anything else ⇒ discard), then clear `now` and `start_time`.  The panel
updater-task cancellation (lines 1009-1014) has no session-state effect. -/
def afterPlayReinsert (st : PlayerState) : PlayerState :=
  let q :=
    match st.now with
    | some now =>
      if st.«repeat» = "single" then now :: st.queue
      else if st.«repeat» = "all" then st.queue ++ [now]
      else st.queue
    | none => st.queue
  { st with queue := q, now := none, start_time := none }

/-- `_play_next` (song.py lines 906-974), with an explicit fuel bound on the
recursion (the source recursion is the resolution-failure tail call of line
927 and, in the `except` branch of lines 967-974, the call into `_after_play`
which re-enters `_play_next`).  Returns the final state together with the
chronological list of user notices emitted. -/
def _play_next (env : Env) : Nat → PlayerState → PlayerState × List String
  | 0, st => (st, [])
  | fuel+1, st =>
    match st.vc with
    | none => (st, [])
    | some _ =>
      match st.queue with
      | [] => ({ st with now := none }, [])
      | next :: rest =>
        let st1 := { st with queue := rest }
        -- lines 929-938: set `now`, build source, record start_time, vc.play;
        -- on exception notify and fall through to `_after_play(guild_id, e)`
        let cont := fun (track : Track) =>
          let st2 := { st1 with now := some track }
          if env.playOk track then
            ({ st2 with start_time := some env.time, vc := some VCState.playing },
             ([] : List String))
          else
            let r := _play_next env fuel (afterPlayReinsert st2)
            (r.1, errNotice track :: r.2)
        if ¬ optStrTruthy next.stream_url ∧ optStrTruthy next.query then
          match _resolve_lazy_track env.search env.extract next with
          | none =>
            let r := _play_next env fuel st1
            (r.1, skipNotice next :: r.2)
          | some resolved => cont resolved
        else cont next

/-- `_after_play` (song.py lines 998-1018): apply the repeat re-insertion,
then advance by calling `_play_next`. -/
def _after_play (env : Env) (fuel : Nat) (st : PlayerState) : PlayerState × List String :=
  _play_next env fuel (afterPlayReinsert st)

/-- The `skip` hybrid command (song.py lines 1100-1108).  `vc.stop()` halts the
audio source; the discord voice backend then invokes the `after=` callback of
line 938 from its player thread, which `run_coroutine_threadsafe`s
`_after_play` onto the bot's event loop, where it runs after the command's own
synchronous statements.  There is no skip-specific flag: the callback is the
ordinary completion path. -/
def skip_cmd (env : Env) (fuel : Nat) (st : PlayerState) : PlayerState × List String :=
  match st.vc with
  | none => (st, [])
  | some v =>
    if v = VCState.playing ∨ v = VCState.paused then
      _after_play env fuel { st with vc := some VCState.idle }
    else (st, [])

/-- The `stop` hybrid command (song.py lines 1085-1098): `vc.stop()` (which
schedules the completion callback exactly when a source was active), then
`queue.clear()` and `is_playlist = False` run synchronously, and only
afterwards does the scheduled `_after_play` run on the event loop. -/
def stop_cmd (env : Env) (fuel : Nat) (st : PlayerState) : PlayerState × List String :=
  match st.vc with
  | none => (st, [])
  | some v =>
    let fired := v = VCState.playing ∨ v = VCState.paused
    let st1 := { st with vc := some VCState.idle, queue := [], is_playlist := false }
    if fired then _after_play env fuel st1 else (st1, [])

/-- Natural end of the audio source: the voice client becomes idle and the
`after=` callback of song.py line 938 runs `_after_play`. -/
def completion_event (env : Env) (fuel : Nat) (st : PlayerState) : PlayerState × List String :=
  _after_play env fuel { st with vc := some VCState.idle }

/-- `SPOTIFY_PLAYLIST_LIMIT` (song.py line 25). -/
def SPOTIFY_PLAYLIST_LIMIT : Nat := 200

/-- `per_page` of the Spotify pagination (song.py line 644). -/
def per_page : Nat := 100

/-- The fields of a Spotify `track` object read by the import loop
(song.py 674-688): `name`, the artists' `name`s, `external_urls.spotify`
and `duration_ms`. -/
structure SpotifyTrackObj where
  name : Option String
  artists : List (Option String)
  spotify_url : Option String
  duration_ms : Option Nat
deriving Repr, DecidableEq

/-- The track dict built for one Spotify item (song.py 677-688).
`duration_ms // 1000 if duration_ms else None` maps both `None` and `0`
to `None`. -/
def mkSpotifyTrack (obj : SpotifyTrackObj) : Track :=
  let artists := String.intercalate ", "
    (obj.artists.filterMap (fun a => if optStrTruthy a then a else none))
  { title := if artists ≠ "" then some (pyStr obj.name ++ " - " ++ artists) else obj.name
  , webpage_url := obj.spotify_url
  , stream_url := none
  , duration :=
      match obj.duration_ms with
      | some ms => if ms ≠ 0 then some (ms / 1000) else none
      | none => none
  , thumbnail := none
  , query := if artists ≠ "" then some (pyStr obj.name ++ " " ++ artists) else obj.name }

/-- Python `min` on two ints. -/
def pyMinInt (a b : Int) : Int := if a ≤ b then a else b

/-- Python `max` on two ints. -/
def pyMaxInt (a b : Int) : Int := if a ≤ b then b else a

/-- The inner `for it in items:` loop of the Spotify import (song.py 673-693):
items whose `track` object is missing are skipped, each kept item is appended
to the queue, and the loop breaks early once `fetched` reaches the cap.
Returns (state, fetched, added). -/
def appendItems : List (Option SpotifyTrackObj) → PlayerState → Nat → Nat →
    PlayerState × Nat × Nat
  | [], st, fetched, added => (st, fetched, added)
  | none :: rest, st, fetched, added => appendItems rest st fetched added
  | some obj :: rest, st, fetched, added =>
    let st' := { st with queue := st.queue ++ [mkSpotifyTrack obj] }
    if SPOTIFY_PLAYLIST_LIMIT ≠ 0 ∧ fetched + 1 ≥ SPOTIFY_PLAYLIST_LIMIT then
      (st', fetched + 1, added + 1)
    else appendItems rest st' (fetched + 1) (added + 1)

/-- The `while True:` pagination loop of `spotify_playlist` (song.py 660-702),
with fuel.  `fetchItems limit offset` is `self.spotify_client.playlist_items`;
`.error` models the raised exception that sends the caller into the `except`
branch of lines 704-711, which returns at once: the queue keeps every track
appended so far and no other player field is touched.
Returns (state, added, completed-without-exception). -/
def spotifyLoop (fetchItems : Nat → Nat → Except Unit (List (Option SpotifyTrackObj)))
    (total_expected : Option Nat) :
    Nat → PlayerState → Nat → Nat → Nat → PlayerState × Nat × Bool
  | 0, st, _, _, added => (st, added, true)
  | fuel+1, st, fetched, offset, added =>
    let to_fetch : Int :=
      if SPOTIFY_PLAYLIST_LIMIT ≠ 0 then
        pyMinInt (per_page : Int) (pyMaxInt 1 ((SPOTIFY_PLAYLIST_LIMIT : Int) - (fetched : Int)))
      else (per_page : Int)
    if to_fetch ≤ 0 then (st, added, true)
    else
      match fetchItems to_fetch.toNat offset with
      | .error _ => (st, added, false)
      | .ok items =>
        if items.isEmpty then (st, added, true)
        else
          let r := appendItems items st fetched added
          let st1 := r.1
          let fetched1 := r.2.1
          let added1 := r.2.2
          let offset1 := offset + items.length
          if SPOTIFY_PLAYLIST_LIMIT ≠ 0 ∧ fetched1 ≥ SPOTIFY_PLAYLIST_LIMIT then
            (st1, added1, true)
          else if (match total_expected with
                   | some te => decide (te ≤ offset1)
                   | none => false) then (st1, added1, true)
          else if items.length < to_fetch.toNat then (st1, added1, true)
          else spotifyLoop fetchItems total_expected fuel st1 fetched1 offset1 added1

/-- The Spotify bulk import from the metadata fetch onwards (song.py 650-713):
the optional playlist name is recorded, the pagination loop runs, and only
when it completes without exception is `is_playlist` set. -/
def spotify_playlist_import
    (fetchItems : Nat → Nat → Except Unit (List (Option SpotifyTrackObj)))
    (meta_name : Option String) (total_expected : Option Nat)
    (fuel : Nat) (st : PlayerState) : PlayerState × Nat × Bool :=
  let st0 := if optStrTruthy meta_name then { st with playlist_name := meta_name } else st
  let r := spotifyLoop fetchItems total_expected fuel st0 0 0 0
  if r.2.2 then ({ r.1 with is_playlist := true }, r.2.1, true)
  else (r.1, r.2.1, false)

/-- `MusicPanel.vol_up` (song.py line 236): `min(1.0, volume + 0.05)`. -/
def vol_up_step (v : Rat) : Rat := min 1 (v + 5/100)

/-- `MusicPanel.vol_down` (song.py line 248): `max(0.0, volume - 0.05)`. -/
def vol_down_step (v : Rat) : Rat := max 0 (v - 5/100)

/-- A sequence of volume button presses (`true` = Vol+, `false` = Vol-)
applied in order. -/
def applyVolOps : List Bool → Rat → Rat
  | [], v => v
  | b :: ops, v => applyVolOps ops (if b then vol_up_step v else vol_down_step v)

/-- `n` consecutive Vol+ presses. -/
def applyUps : Nat → Rat → Rat
  | 0, v => v
  | n+1, v => vol_up_step (applyUps n v)

/-- `n` consecutive Vol- presses. -/
def applyDowns : Nat → Rat → Rat
  | 0, v => v
  | n+1, v => vol_down_step (applyDowns n v)

theorem tupLt_irrefl (x : Rat × Rat) : ¬ tupLt x x := by
  rintro (h | ⟨-, h⟩) <;> exact lt_irrefl _ h

theorem tupLt_trans {x y z : Rat × Rat} (hxy : tupLt x y) (hyz : tupLt y z) : tupLt x z := by
  rcases hxy with h | ⟨h1, h2⟩ <;> rcases hyz with h' | ⟨h1', h2'⟩
  · exact Or.inl (lt_trans h h')
  · exact Or.inl (h1' ▸ h)
  · exact Or.inl (h1 ▸ h')
  · exact Or.inr ⟨h1.trans h1', lt_trans h2 h2'⟩

theorem tupLt_asymm {x y : Rat × Rat} (h : tupLt x y) : ¬ tupLt y x :=
  fun h2 => tupLt_irrefl x (tupLt_trans h h2)

/-- Totality of the lexicographic score order. -/
theorem tupLt_resolve {x y : Rat × Rat} (h : ¬ tupLt x y) : tupLt y x ∨ y = x := by
  unfold tupLt at *
  push_neg at h
  obtain ⟨h1, h2⟩ := h
  rcases lt_trichotomy y.1 x.1 with hlt | heq | hgt
  · exact Or.inl (Or.inl hlt)
  · rcases lt_trichotomy y.2 x.2 with h2lt | h2eq | h2gt
    · exact Or.inl (Or.inr ⟨heq, h2lt⟩)
    · exact Or.inr (Prod.ext_iff.mpr ⟨heq, h2eq⟩)
    · exact absurd h2gt (not_lt.mpr (h2 heq.symm))
  · exact absurd hgt (not_lt.mpr h1)

/-- The fold of `pickFold` returns an element of the list such that everything
strictly before it scores strictly lower and nothing after it scores strictly
higher: exactly the head of Python's stable descending sort. -/
theorem pickFold_spec : ∀ (fs : List Format) (f : Format),
    ∃ l₁ l₂, f :: fs = l₁ ++ pickFold f fs :: l₂ ∧
      (∀ d ∈ l₁, tupLt (score d) (score (pickFold f fs))) ∧
      (∀ d ∈ l₂, ¬ tupLt (score (pickFold f fs)) (score d)) := by
  intro fs
  induction fs with
  | nil =>
    intro f
    exact ⟨[], [], rfl, by simp, by simp⟩
  | cons g gs ih =>
    intro f
    by_cases hfg : tupLt (score f) (score g)
    · have hfold : pickFold f (g :: gs) = pickFold g gs := by
        simp [pickFold, List.foldl, hfg]
      obtain ⟨l₁, l₂, hsplit, hl₁, hl₂⟩ := ih g
      have hgc : tupLt (score g) (score (pickFold g gs)) ∨ g = pickFold g gs := by
        cases l₁ with
        | nil =>
          right
          simpa using congrArg (fun l => l.head?) hsplit
        | cons a l₁' =>
          left
          have ha : g = a := by
            simpa using congrArg (fun l => l.head?) hsplit
          exact ha ▸ hl₁ a (List.mem_cons_self a l₁')
      refine ⟨f :: l₁, l₂, ?_, ?_, ?_⟩
      · rw [hfold]
        simpa using hsplit
      · intro d hd
        rw [hfold]
        rcases List.mem_cons.mp hd with rfl | hd
        · rcases hgc with h | h
          · exact tupLt_trans hfg h
          · exact h ▸ hfg
        · exact hl₁ d hd
      · intro d hd
        rw [hfold]
        exact hl₂ d hd
    · have hfold : pickFold f (g :: gs) = pickFold f gs := by
        simp [pickFold, List.foldl, hfg]
      obtain ⟨l₁, l₂, hsplit, hl₁, hl₂⟩ := ih f
      cases l₁ with
      | nil =>
        have hfc : f = pickFold f gs := by
          simpa using congrArg (fun l => l.head?) hsplit
        have htail : gs = l₂ := by
          simpa using congrArg List.tail hsplit
        refine ⟨[], g :: gs, ?_, by simp, ?_⟩
        · rw [hfold, ← hfc]
          simp
        · intro d hd
          rw [hfold, ← hfc]
          rcases List.mem_cons.mp hd with rfl | hd
          · exact hfg
          · exact hfc ▸ hl₂ d (htail ▸ hd)
      | cons a l₁' =>
        have ha : f = a := by
          simpa using congrArg (fun l => l.head?) hsplit
        have htail : gs = l₁' ++ pickFold f gs :: l₂ := by
          simpa using congrArg List.tail hsplit
        have hfc : tupLt (score f) (score (pickFold f gs)) :=
          ha ▸ hl₁ a (List.mem_cons_self a l₁')
        refine ⟨f :: g :: l₁', l₂, ?_, ?_, ?_⟩
        · rw [hfold]
          conv_lhs => rw [htail]
          simp
        · intro d hd
          rw [hfold]
          rcases List.mem_cons.mp hd with rfl | hd
          · exact hfc
          · rcases List.mem_cons.mp hd with rfl | hd
            · rcases tupLt_resolve hfg with h | h
              · exact tupLt_trans h hfc
              · exact h ▸ hfc
            · exact hl₁ d (ha ▸ List.mem_cons_of_mem a hd)
        · intro d hd
          rw [hfold]
          exact hl₂ d hd

/-- C6: for an extraction result with a non-empty candidate list, the selected
stream URL is the url-or-src of a candidate whose (abr, tbr) score, missing
values read as 0, is lexicographically maximal, and every candidate seen
before it scores strictly lower (Python's stable reverse sort breaks ties by
first-seen order); with an empty candidate list and no truthy top-level URL,
selection returns no stream. -/
theorem c6_stream_selection (info : Info) :
    (candidatesOf info.formats ≠ [] →
      ∃ best l₁ l₂,
        candidatesOf info.formats = l₁ ++ best :: l₂ ∧
        _select_best_audio_url info = pyOr best.url best.src ∧
        (∀ d ∈ candidatesOf info.formats, ¬ tupLt (score best) (score d)) ∧
        (∀ d ∈ l₁, tupLt (score d) (score best))) ∧
    (candidatesOf info.formats = [] → optStrTruthy info.url = false →
      _select_best_audio_url info = none) := by
  constructor
  · intro hne
    obtain ⟨f, fs, hcands⟩ : ∃ f fs, candidatesOf info.formats = f :: fs := by
      cases h : candidatesOf info.formats with
      | nil => exact absurd h hne
      | cons f fs => exact ⟨f, fs, rfl⟩
    have hformats : info.formats.isEmpty = false := by
      cases hf : info.formats with
      | nil => rw [hf] at hcands; simp [candidatesOf] at hcands
      | cons _ _ => rfl
    have hsel : _select_best_audio_url info = pyOr (pickFold f fs).url (pickFold f fs).src := by
      unfold _select_best_audio_url
      rw [if_neg, hcands]
      · rfl
      · rintro ⟨-, h2⟩
        rw [hformats] at h2
        exact Bool.false_ne_true h2
    obtain ⟨l₁, l₂, hsplit, hl₁, hl₂⟩ := pickFold_spec fs f
    refine ⟨pickFold f fs, l₁, l₂, by rw [hcands]; exact hsplit, hsel, ?_, hl₁⟩
    intro d hd
    rw [hcands, hsplit] at hd
    rcases List.mem_append.mp hd with hd | hd
    · exact tupLt_asymm (hl₁ d hd)
    · rcases List.mem_cons.mp hd with rfl | hd
      · exact tupLt_irrefl _
      · exact hl₂ d hd
  · intro hc hurl
    unfold _select_best_audio_url
    rw [if_neg, hc]
    · rfl
    · rintro ⟨h1, -⟩
      rw [hurl] at h1
      exact Bool.false_ne_true h1

/-- An audio-bearing format with no abr and a small tbr. -/
def fmtAudio : Format :=
  { url := some "a-url", src := none, acodec := some "opus", abr := none, tbr := some 100 }

/-- A video-only format (acodec "none") with no abr and a large tbr. -/
def fmtVideoOnly : Format :=
  { url := some "video-only-url", src := none, acodec := some "none", abr := none, tbr := some 5000 }

/-- Extraction result holding one audio and one video-only format. -/
def infoC6 : Info :=
  { url := none, formats := [fmtAudio, fmtVideoOnly], title := none, webpage_url := none
  , duration := none, thumbnail := none, thumbnails := [] }

/-- Extraction result with no formats and no top-level URL. -/
def infoEmpty : Info :=
  { url := none, formats := [], title := none, webpage_url := none
  , duration := none, thumbnail := none, thumbnails := [] }

/-- Witness for C6: both parts of `c6_stream_selection` applied at concrete
extraction results, their hypotheses discharged by evaluation. -/
theorem c6_stream_selection_witness :
    (∃ best l₁ l₂,
      candidatesOf infoC6.formats = l₁ ++ best :: l₂ ∧
      _select_best_audio_url infoC6 = pyOr best.url best.src ∧
      (∀ d ∈ candidatesOf infoC6.formats, ¬ tupLt (score best) (score d)) ∧
      (∀ d ∈ l₁, tupLt (score d) (score best))) ∧
    _select_best_audio_url infoEmpty = none :=
  ⟨(c6_stream_selection infoC6).1 (by decide),
   (c6_stream_selection infoEmpty).2 (by decide) (by decide)⟩

/-- C10: the acodec test of `_select_best_audio_url` admits every url-carrying
format, video-only (`acodec == "none"`) entries included, so the candidate
list is exactly the url-carrying formats, and on a concrete extraction result
the selected "best audio" URL is that of a stream with no audio track. -/
theorem c10_acodec_never_filters :
    (∀ fs : List Format, candidatesOf fs = fs.filter formatCandidate) ∧
    (fmtVideoOnly.acodec = some "none" ∧
     candidatesOf [fmtAudio, fmtVideoOnly] = [fmtAudio, fmtVideoOnly] ∧
     _select_best_audio_url infoC6 = some "video-only-url") := by
  constructor
  · intro fs
    induction fs with
    | nil => rfl
    | cons f fs ih =>
      by_cases h : formatCandidate f
      · simp [candidatesOf, List.filter_cons, h, ih, ite_self]
      · simp [candidatesOf, List.filter_cons, h, ih]
  · exact ⟨rfl, by decide, by decide⟩

theorem applyResolvedInfo_truthy {t : Track} {i : Info} {t' : Track}
    (h : applyResolvedInfo t i = some t') : optStrTruthy t'.stream_url = true := by
  unfold applyResolvedInfo at h
  split at h
  · exact absurd h (by simp)
  · rename_i hcond
    obtain rfl := Option.some.inj h
    simpa using of_not_not hcond

theorem resolve_success_truthy {search : String → Option String}
    {extract : String → Option ExtractInfo} {t t' : Track}
    (h : _resolve_lazy_track search extract t = some t') :
    optStrTruthy t'.stream_url = true := by
  unfold _resolve_lazy_track at h
  split at h
  · rename_i htr
    obtain rfl := Option.some.inj h
    exact htr
  · split at h
    · exact absurd h (by simp)
    · split at h
      · exact absurd h (by simp)
      · split at h
        · exact absurd h (by simp)
        · exact applyResolvedInfo_truthy h

/-- C7: a track already carrying a truthy `stream_url` passes through
`_resolve_lazy_track` unchanged, and any successfully resolved output is a
fixpoint of resolution under arbitrary search/extraction oracles, so a pending
track is mutated to resolved at most once. -/
theorem c7_resolution_idempotent (search : String → Option String)
    (extract : String → Option ExtractInfo) (t : Track) :
    (optStrTruthy t.stream_url = true → _resolve_lazy_track search extract t = some t) ∧
    (∀ t', _resolve_lazy_track search extract t = some t' →
      ∀ (search' : String → Option String) (extract' : String → Option ExtractInfo),
        _resolve_lazy_track search' extract' t' = some t') := by
  constructor
  · intro h
    unfold _resolve_lazy_track
    rw [if_pos h]
  · intro t' h search' extract'
    have htr := resolve_success_truthy h
    unfold _resolve_lazy_track
    rw [if_pos htr]

/-- A fully resolved track fixture. -/
def trackA : Track :=
  { title := some "A", webpage_url := none, stream_url := some "urlA"
  , duration := none, thumbnail := none, query := none }

/-- A second fully resolved track fixture. -/
def trackB : Track :=
  { title := some "B", webpage_url := none, stream_url := some "urlB"
  , duration := none, thumbnail := none, query := none }

/-- Witness for C7: the already-resolved `trackA` is returned unchanged. -/
theorem c7_resolution_idempotent_witness :
    _resolve_lazy_track (fun _ => none) (fun _ => none) trackA = some trackA :=
  (c7_resolution_idempotent (fun _ => none) (fun _ => none) trackA).1 (by decide)

theorem vol_up_step_mem {v : Rat} (h0 : 0 ≤ v) : 0 ≤ vol_up_step v ∧ vol_up_step v ≤ 1 := by
  unfold vol_up_step
  constructor
  · exact le_min (by norm_num) (by linarith)
  · exact min_le_left _ _

theorem vol_down_step_mem {v : Rat} (h1 : v ≤ 1) : 0 ≤ vol_down_step v ∧ vol_down_step v ≤ 1 := by
  unfold vol_down_step
  constructor
  · exact le_max_left _ _
  · exact max_le (by norm_num) (by linarith)

theorem applyVolOps_mem : ∀ (ops : List Bool) {v : Rat}, 0 ≤ v → v ≤ 1 →
    0 ≤ applyVolOps ops v ∧ applyVolOps ops v ≤ 1 := by
  intro ops
  induction ops with
  | nil => exact fun h0 h1 => ⟨h0, h1⟩
  | cons b ops ih =>
    intro v h0 h1
    unfold applyVolOps
    cases b with
    | true =>
      obtain ⟨g0, g1⟩ := vol_up_step_mem h0
      simpa using ih g0 g1
    | false =>
      obtain ⟨g0, g1⟩ := vol_down_step_mem h1
      simpa using ih g0 g1

theorem applyUps_one : ∀ n : Nat, applyUps n 1 = 1 := by
  intro n
  induction n with
  | zero => rfl
  | succ n ih =>
    unfold applyUps
    rw [ih]
    unfold vol_up_step
    norm_num

theorem applyDowns_zero : ∀ n : Nat, applyDowns n 0 = 0 := by
  intro n
  induction n with
  | zero => rfl
  | succ n ih =>
    unfold applyDowns
    rw [ih]
    unfold vol_down_step
    norm_num

theorem applyUps_add (a b : Nat) (v : Rat) : applyUps (b + a) v = applyUps b (applyUps a v) := by
  induction b with
  | zero => simp [applyUps]
  | succ b ih =>
    have : b + 1 + a = (b + a) + 1 := by omega
    rw [this]
    unfold applyUps
    rw [ih]

theorem applyDowns_add (a b : Nat) (v : Rat) : applyDowns (b + a) v = applyDowns b (applyDowns a v) := by
  induction b with
  | zero => simp [applyDowns]
  | succ b ih =>
    have : b + 1 + a = (b + a) + 1 := by omega
    rw [this]
    unfold applyDowns
    rw [ih]

/-- C9: every Vol+ press computes `min(1.0, v + 0.05)` and every Vol- press
`max(0.0, v - 0.05)`, so from the default volume 0.15 any sequence of presses
stays inside [0, 1], and the volume clamps at exactly 1 after at least 17
increases and at exactly 0 after at least 3 decreases. -/
theorem c9_volume_clamping (ops : List Bool) (n m : Nat) (hn : 17 ≤ n) (hm : 3 ≤ m) :
    (∀ v : Rat, vol_up_step v = min 1 (v + 5/100) ∧ vol_down_step v = max 0 (v - 5/100)) ∧
    (0 ≤ applyVolOps ops (15/100) ∧ applyVolOps ops (15/100) ≤ 1) ∧
    applyUps n (15/100) = 1 ∧ applyDowns m (15/100) = 0 := by
  refine ⟨fun v => ⟨rfl, rfl⟩, applyVolOps_mem ops (by norm_num) (by norm_num), ?_, ?_⟩
  · obtain ⟨k, rfl⟩ : ∃ k, n = k + 17 := ⟨n - 17, by omega⟩
    rw [applyUps_add 17 k]
    have h17 : applyUps 17 (15/100) = 1 := by
      simp only [applyUps, vol_up_step, min_def]
      norm_num
    rw [h17, applyUps_one]
  · obtain ⟨k, rfl⟩ : ∃ k, m = k + 3 := ⟨m - 3, by omega⟩
    rw [applyDowns_add 3 k]
    have h3 : applyDowns 3 (15/100) = 0 := by
      simp only [applyDowns, vol_down_step, max_def]
      norm_num
    rw [h3, applyDowns_zero]

/-- Witness for C9: one Vol+ press from 0.15, then 17 increases and 3
decreases clamp exactly. -/
theorem c9_volume_clamping_witness :
    (∀ v : Rat, vol_up_step v = min 1 (v + 5/100) ∧ vol_down_step v = max 0 (v - 5/100)) ∧
    (0 ≤ applyVolOps [true] (15/100) ∧ applyVolOps [true] (15/100) ≤ 1) ∧
    applyUps 17 (15/100) = 1 ∧ applyDowns 3 (15/100) = 0 :=
  c9_volume_clamping [true] 17 3 (by norm_num) (by norm_num)

/-- Oracles under which every track plays successfully and no lazy
resolution is attempted. -/
def envOk : Env :=
  { search := fun _ => none, extract := fun _ => none, playOk := fun _ => true, time := 0 }

/-- A session playing `trackA` with `trackB` queued, repeat mode "single". -/
def stPlayingSingle : PlayerState :=
  { vc := some VCState.playing, queue := [trackB], now := some trackA, volume := 15/100
  , «repeat» := "single", is_playlist := false, playlist_name := none, start_time := some 0 }

/-- The session of the spec scenario: repeat "all", `trackA` sounding,
`trackB` queued (i.e. original queue [A, B] with A popped to play). -/
def stRepeatAll : PlayerState :=
  { vc := some VCState.playing, queue := [trackB], now := some trackA, volume := 15/100
  , «repeat» := "all", is_playlist := false, playlist_name := none, start_time := some 0 }

/-- C3: on natural completion `_after_play` re-inserts the completed track
unchanged — at the front for repeat "single", at the back for "all", not at
all for "off" — and clears `nowPlaying`; in particular for repeat "all" with
queue [A, B] playing A, after A completes the queue is [B, A] and A is not
`nowPlaying` at that point. -/
theorem c3_repeat_reinsertion (st : PlayerState) (t : Track) (hnow : st.now = some t) :
    ((st.«repeat» = "single" → (afterPlayReinsert st).queue = t :: st.queue) ∧
     (st.«repeat» = "all" → (afterPlayReinsert st).queue = st.queue ++ [t]) ∧
     (st.«repeat» = "off" → (afterPlayReinsert st).queue = st.queue) ∧
     (afterPlayReinsert st).now = none) ∧
    ((afterPlayReinsert stRepeatAll).queue = [trackB, trackA] ∧
     (afterPlayReinsert stRepeatAll).now = none) := by
  refine ⟨⟨?_, ?_, ?_, ?_⟩, by constructor <;> rfl⟩
  · intro h
    simp [afterPlayReinsert, hnow, h]
  · intro h
    simp [afterPlayReinsert, hnow, h]
  · intro h
    simp [afterPlayReinsert, hnow, h]
  · simp [afterPlayReinsert]

/-- Witness for C3: `c3_repeat_reinsertion` applied to the repeat-"all"
session playing `trackA`. -/
theorem c3_repeat_reinsertion_witness :
    ((stRepeatAll.«repeat» = "single" → (afterPlayReinsert stRepeatAll).queue = trackA :: stRepeatAll.queue) ∧
     (stRepeatAll.«repeat» = "all" → (afterPlayReinsert stRepeatAll).queue = stRepeatAll.queue ++ [trackA]) ∧
     (stRepeatAll.«repeat» = "off" → (afterPlayReinsert stRepeatAll).queue = stRepeatAll.queue) ∧
     (afterPlayReinsert stRepeatAll).now = none) ∧
    ((afterPlayReinsert stRepeatAll).queue = [trackB, trackA] ∧
     (afterPlayReinsert stRepeatAll).now = none) :=
  c3_repeat_reinsertion stRepeatAll trackA rfl

/-- Counterexample to C1 as stated: in a Playing session with repeat mode
"single", `nowPlaying = trackA` and queue [trackB], the skip command does NOT
discard the repeat re-insertion — the completion callback it triggers pushes
`trackA` back to the front of the queue and the advance replays `trackA`
instead of moving on to `trackB`. -/
theorem c1_skip_counterexample :
    (skip_cmd envOk 2 stPlayingSingle).1.now = some trackA ∧
    (skip_cmd envOk 2 stPlayingSingle).1.now ≠ some trackB ∧
    trackA ≠ trackB := by
  refine ⟨by decide, by decide, by decide⟩

/-- C1 (amended): for a Playing or Paused session, skip runs exactly the
natural-completion path — `vc.stop()` merely fires the same `after=` callback
— so the repeat re-insertion is applied, not discarded: "single" pushes the
skipped track to the front (and the advance replays it), "all" appends it to
the back, any other mode discards it, and then the scheduler advances. -/
theorem c1_skip_runs_completion_path (env : Env) (fuel : Nat) (st : PlayerState) (t : Track)
    (hvc : st.vc = some VCState.playing ∨ st.vc = some VCState.paused)
    (hnow : st.now = some t) :
    skip_cmd env fuel st = completion_event env fuel st ∧
    (afterPlayReinsert { st with vc := some VCState.idle }).queue =
      (if st.«repeat» = "single" then t :: st.queue
       else if st.«repeat» = "all" then st.queue ++ [t]
       else st.queue) ∧
    (afterPlayReinsert { st with vc := some VCState.idle }).now = none := by
  refine ⟨?_, ?_, by simp [afterPlayReinsert]⟩
  · rcases hvc with h | h <;>
      simp [skip_cmd, completion_event, h]
  · simp [afterPlayReinsert, hnow]

/-- Witness for the amended C1 at the concrete Playing repeat-"single"
session. -/
theorem c1_skip_runs_completion_path_witness :
    skip_cmd envOk 2 stPlayingSingle = completion_event envOk 2 stPlayingSingle ∧
    (afterPlayReinsert { stPlayingSingle with vc := some VCState.idle }).queue =
      (if stPlayingSingle.«repeat» = "single" then trackA :: stPlayingSingle.queue
       else if stPlayingSingle.«repeat» = "all" then stPlayingSingle.queue ++ [trackA]
       else stPlayingSingle.queue) ∧
    (afterPlayReinsert { stPlayingSingle with vc := some VCState.idle }).now = none :=
  c1_skip_runs_completion_path envOk 2 stPlayingSingle trackA (Or.inl rfl) rfl

/-- C2 is a code bug: in a Playing session with repeat mode "single",
`nowPlaying = trackA` and queue [trackB], the stop command clears the queue
but never clears `now` before `vc.stop()` fires the completion callback, so
`_after_play` re-inserts `trackA` into the freshly cleared queue and
`_play_next` restarts it: the session ends up Playing `trackA` again instead
of Idle with `nowPlaying` null, contradicting the command's own
"Stopped and cleared the queue." message. -/
theorem c2_stop_restarts_current_track :
    (stop_cmd envOk 2 stPlayingSingle).1.now = some trackA ∧
    (stop_cmd envOk 2 stPlayingSingle).1.vc = some VCState.playing ∧
    (stop_cmd envOk 2 stPlayingSingle).1.queue = [] := by
  refine ⟨by decide, by decide, by decide⟩

theorem play_next_drain_aux (env : Env) (v : VCState) :
    ∀ (q : List Track),
      (∀ t ∈ q, optStrTruthy t.stream_url = false ∧ optStrTruthy t.query = true ∧
        _resolve_lazy_track env.search env.extract t = none) →
      ∀ (now : Option Track) (vol : Rat) (rep : String) (ip : Bool)
        (pn : Option String) (stt : Option Rat) (fuel : Nat), q.length < fuel →
        _play_next env fuel ⟨some v, q, now, vol, rep, ip, pn, stt⟩ =
          (⟨some v, [], none, vol, rep, ip, pn, stt⟩, q.map skipNotice) := by
  intro q
  induction q with
  | nil =>
    intro _ now vol rep ip pn stt fuel hfuel
    match fuel, hfuel with
    | fuel+1, _ => simp [_play_next]
  | cons t rest ih =>
    intro hfail now vol rep ip pn stt fuel hfuel
    match fuel, hfuel with
    | fuel+1, hfuel =>
      obtain ⟨h1, h2, h3⟩ := hfail t (List.mem_cons_self t rest)
      have ihr := ih (fun d hd => hfail d (List.mem_cons_of_mem t hd))
        now vol rep ip pn stt fuel (Nat.lt_of_succ_lt_succ hfuel)
      simp [_play_next, h1, h2, h3, ihr]

/-- C5: on a connected session whose queue consists entirely of pending
tracks (`query` set, `stream_url` unset) that all fail resolution, the
advance terminates with fuel just above the queue length: every failed track
is popped and discarded, one skip notice per track is emitted (exactly N of
them, in queue order), and the session ends Idle with an empty queue and
`nowPlaying` null. -/
theorem c5_all_failing_queue_drains (env : Env) (st : PlayerState)
    (hvc : st.vc.isSome = true)
    (hfail : ∀ t ∈ st.queue, optStrTruthy t.stream_url = false ∧ optStrTruthy t.query = true ∧
      _resolve_lazy_track env.search env.extract t = none)
    (fuel : Nat) (hfuel : st.queue.length < fuel) :
    _play_next env fuel st = ({ st with queue := [], now := none }, st.queue.map skipNotice) ∧
    (st.queue.map skipNotice).length = st.queue.length := by
  obtain ⟨vc, q, now, vol, rep, ip, pn, stt⟩ := st
  obtain ⟨v, rfl⟩ : ∃ v, vc = some v := by
    cases vc with
    | none => simp at hvc
    | some v => exact ⟨v, rfl⟩
  exact ⟨play_next_drain_aux env v q hfail now vol rep ip pn stt fuel hfuel, by simp⟩

/-- A pending (lazily resolvable) track fixture. -/
def pendingP1 : Track :=
  { title := some "P1", webpage_url := none, stream_url := none
  , duration := none, thumbnail := none, query := some "find p1" }

/-- A second pending track fixture. -/
def pendingP2 : Track :=
  { title := some "P2", webpage_url := none, stream_url := none
  , duration := none, thumbnail := none, query := some "find p2" }

/-- An idle connected session whose whole queue is pending tracks. -/
def stAllFailing : PlayerState :=
  { vc := some VCState.idle, queue := [pendingP1, pendingP2], now := none, volume := 15/100
  , «repeat» := "off", is_playlist := false, playlist_name := none, start_time := none }

/-- Witness for C5: under oracles in which every extraction fails, the
two-track pending queue drains to Idle with two skip notices. -/
theorem c5_all_failing_queue_drains_witness :
    _play_next envOk 3 stAllFailing =
      ({ stAllFailing with queue := [], now := none }, stAllFailing.queue.map skipNotice) ∧
    (stAllFailing.queue.map skipNotice).length = stAllFailing.queue.length :=
  c5_all_failing_queue_drains envOk stAllFailing (by decide) (by decide) 3 (by decide)

/-- Reference list of the tracks that the inner `for it in items:` loop
appends for one page: `mkSpotifyTrack` of each kept item in order, stopping
after the item on which `fetched` reaches the cap — the same traversal as
`appendItems`, state omitted. -/
def appendedOfItems : List (Option SpotifyTrackObj) → Nat → List Track
  | [], _ => []
  | none :: rest, fetched => appendedOfItems rest fetched
  | some obj :: rest, fetched =>
    if SPOTIFY_PLAYLIST_LIMIT ≠ 0 ∧ fetched + 1 ≥ SPOTIFY_PLAYLIST_LIMIT then [mkSpotifyTrack obj]
    else mkSpotifyTrack obj :: appendedOfItems rest (fetched + 1)

/-- `appendItems` appends exactly `appendedOfItems items fetched` to the
queue and advances both counters by its length. -/
theorem appendItems_eq :
    ∀ (items : List (Option SpotifyTrackObj)) (st : PlayerState) (fetched added : Nat),
      appendItems items st fetched added =
        ({ st with queue := st.queue ++ appendedOfItems items fetched },
         fetched + (appendedOfItems items fetched).length,
         added + (appendedOfItems items fetched).length) := by
  intro items
  induction items with
  | nil =>
    intro st fetched added
    simp [appendItems, appendedOfItems]
  | cons it rest ih =>
    intro st fetched added
    cases it with
    | none => simpa [appendItems, appendedOfItems] using ih st fetched added
    | some obj =>
      simp only [appendItems, appendedOfItems]
      split
      · simp
      · rw [ih { st with queue := st.queue ++ [mkSpotifyTrack obj] } (fetched + 1) (added + 1)]
        simp
        omega

/-- Reference list of every track the pagination loop appends before it
stops — at the failing fetch, at an exhausted or short page, or at one of
the cap checks: the concatenation, page by page in fetch order, of
`appendedOfItems` over the successfully fetched pages.  The recursion
mirrors `spotifyLoop` with the state dropped. -/
def importedTracks (fetchItems : Nat → Nat → Except Unit (List (Option SpotifyTrackObj)))
    (total_expected : Option Nat) : Nat → Nat → Nat → List Track
  | 0, _, _ => []
  | fuel+1, fetched, offset =>
    let to_fetch : Int :=
      if SPOTIFY_PLAYLIST_LIMIT ≠ 0 then
        pyMinInt (per_page : Int) (pyMaxInt 1 ((SPOTIFY_PLAYLIST_LIMIT : Int) - (fetched : Int)))
      else (per_page : Int)
    if to_fetch ≤ 0 then []
    else
      match fetchItems to_fetch.toNat offset with
      | .error _ => []
      | .ok items =>
        if items.isEmpty then []
        else
          let app := appendedOfItems items fetched
          let fetched1 := fetched + app.length
          let offset1 := offset + items.length
          if SPOTIFY_PLAYLIST_LIMIT ≠ 0 ∧ fetched1 ≥ SPOTIFY_PLAYLIST_LIMIT then app
          else if (match total_expected with
                   | some te => decide (te ≤ offset1)
                   | none => false) then app
          else if items.length < to_fetch.toNat then app
          else app ++ importedTracks fetchItems total_expected fuel fetched1 offset1

/-- The pagination loop leaves every field of the state unchanged except the
queue, which it extends by exactly `importedTracks` — the tracks of the
successfully fetched pages in insertion order — whether it completes or hits
the failing fetch. -/
theorem spotifyLoop_queue
    (fetchItems : Nat → Nat → Except Unit (List (Option SpotifyTrackObj)))
    (total_expected : Option Nat) :
    ∀ (fuel : Nat) (st : PlayerState) (fetched offset added : Nat),
      (spotifyLoop fetchItems total_expected fuel st fetched offset added).1 =
        { st with queue :=
            st.queue ++ importedTracks fetchItems total_expected fuel fetched offset } := by
  intro fuel
  induction fuel with
  | zero =>
    intro st fetched offset added
    simp [spotifyLoop, importedTracks]
  | succ fuel ih =>
    intro st fetched offset added
    simp only [spotifyLoop, importedTracks, appendItems_eq]
    norm_num [SPOTIFY_PLAYLIST_LIMIT]
    split
    · simp
    · split
      · simp
      · split
        · simp
        · split
          · simp
          · split
            · simp
            · split
              · simp
              · rw [ih]
                simp

/-- C8: when a page fetch raises partway through the Spotify bulk import,
only the import aborts: the final queue is the original queue extended, in
insertion order, by exactly `importedTracks` — the tracks built from the
pages fetched successfully before the failure — so nothing already appended
is rolled back, and every other player field — `now`, the voice client,
volume, repeat mode, `is_playlist`, `start_time` — is left exactly as it
was; the session is not torn down.  (The only other field the import writes
is `playlist_name`, set from the playlist metadata before the page loop.) -/
theorem c8_fetch_failure_aborts_only_import
    (fetchItems : Nat → Nat → Except Unit (List (Option SpotifyTrackObj)))
    (meta_name : Option String) (total_expected : Option Nat) (fuel : Nat) (st : PlayerState)
    (hfail : (spotify_playlist_import fetchItems meta_name total_expected fuel st).2.2 = false) :
    (spotify_playlist_import fetchItems meta_name total_expected fuel st).1.queue =
      st.queue ++ importedTracks fetchItems total_expected fuel 0 0 ∧
    (spotify_playlist_import fetchItems meta_name total_expected fuel st).1.now = st.now ∧
    (spotify_playlist_import fetchItems meta_name total_expected fuel st).1.vc = st.vc ∧
    (spotify_playlist_import fetchItems meta_name total_expected fuel st).1.volume = st.volume ∧
    (spotify_playlist_import fetchItems meta_name total_expected fuel st).1.«repeat» = st.«repeat» ∧
    (spotify_playlist_import fetchItems meta_name total_expected fuel st).1.is_playlist = st.is_playlist ∧
    (spotify_playlist_import fetchItems meta_name total_expected fuel st).1.start_time = st.start_time := by
  simp only [spotify_playlist_import] at hfail ⊢
  set st0 := if optStrTruthy meta_name then { st with playlist_name := meta_name } else st with hst0
  have hts := spotifyLoop_queue fetchItems total_expected fuel st0 0 0 0
  have hfields : st0.queue = st.queue ∧ st0.now = st.now ∧ st0.vc = st.vc ∧
      st0.volume = st.volume ∧ st0.«repeat» = st.«repeat» ∧
      st0.is_playlist = st.is_playlist ∧ st0.start_time = st.start_time := by
    rw [hst0]
    split <;> simp
  by_cases hr : (spotifyLoop fetchItems total_expected fuel st0 0 0 0).2.2 = true
  · rw [if_pos hr] at hfail
    simp at hfail
  · rw [if_neg hr] at hfail ⊢
    refine ⟨?_, ?_, ?_, ?_, ?_, ?_, ?_⟩ <;>
      rw [hts] <;>
      simp [hfields.1, hfields.2.1, hfields.2.2.1, hfields.2.2.2.1,
            hfields.2.2.2.2.1, hfields.2.2.2.2.2.1, hfields.2.2.2.2.2.2]

/-- A concrete Spotify track object. -/
def sObjW : SpotifyTrackObj :=
  { name := some "T", artists := [some "A"], spotify_url := none, duration_ms := some 200000 }

/-- A fetch oracle whose first page succeeds with a full page of 100 items
and whose second fetch raises. -/
def pageThenFail : Nat → Nat → Except Unit (List (Option SpotifyTrackObj)) :=
  fun _ offset => if offset = 0 then Except.ok (List.replicate 100 (some sObjW)) else Except.error ()

set_option maxRecDepth 4000 in
/-- Witness for C8: the import fails on the second page after a full first
page, and the final queue is the empty original queue extended by the 100
tracks of that first page (`importedTracks` is non-empty here). -/
theorem c8_fetch_failure_aborts_only_import_witness :
    (spotify_playlist_import pageThenFail none none 2 initial_player).1.queue =
      initial_player.queue ++ importedTracks pageThenFail none 2 0 0 ∧
    (spotify_playlist_import pageThenFail none none 2 initial_player).1.now = initial_player.now ∧
    (spotify_playlist_import pageThenFail none none 2 initial_player).1.vc = initial_player.vc ∧
    (spotify_playlist_import pageThenFail none none 2 initial_player).1.volume = initial_player.volume ∧
    (spotify_playlist_import pageThenFail none none 2 initial_player).1.«repeat» = initial_player.«repeat» ∧
    (spotify_playlist_import pageThenFail none none 2 initial_player).1.is_playlist = initial_player.is_playlist ∧
    (spotify_playlist_import pageThenFail none none 2 initial_player).1.start_time = initial_player.start_time :=
  c8_fetch_failure_aborts_only_import pageThenFail none none 2 initial_player (by decide)

/-- The retained prefix of the aborted witness import is the full first page:
100 tracks, so the failure demonstrably does not roll back appended tracks. -/
theorem c8_imported_prefix_nonempty :
    importedTracks pageThenFail none 2 0 0 = List.replicate 100 (mkSpotifyTrack sObjW) ∧
    (importedTracks pageThenFail none 2 0 0).length = 100 := by
  constructor <;> decide
